import Mathlib

/-!
# Verification of the CV metadata extraction engine (`parse_cv_metadata` in `app.py`)

This file gives a shallow embedding, in Lean 4, of the heuristic résumé-parsing
function `parse_cv_metadata` of the repository, together with theorems settling
the frozen claims about it.

The Python function is regex-driven.  We embed the regular expressions as an
explicit AST (`RE`) together with a backtracking matcher (`matchRE`) whose
priorities mirror CPython's `re` module: alternation prefers the left branch,
quantifiers are greedy, `re.search` returns the leftmost match, `re.findall`
returns non-overlapping matches scanning left to right.  Capture groups record
the span of their last successful match on the accepted backtracking path.

Machine-specific details of the embedding:

* Python strings are embedded as `List Char` (one entry per code point, matching
  Python's per-code-point indexing and `len`).
* `str.lower`/`str.upper`/`isupper` are embedded for the ASCII and Latin-1
  ranges actually exercised by the program's tables (A–Z, À–Þ, Ÿ); other code
  points are left fixed.
* `datetime.datetime.now()` is embedded as an explicit `(year, month)` argument
  threaded into `parse`; the Python code reads the wall clock there.
* Python `round` (round half to even) applied to `merged_months / 12` is
  embedded as exact round-half-to-even of the rational `m / 12`; for every
  magnitude reachable here the IEEE double computation agrees with the exact
  rational one.
* Python `set` iteration order is unspecified; `list(set(xs))` is embedded as
  first-occurrence deduplication (`dedupBy`).  No claim depends on the order.
-/

namespace CVParse

/-! ## Characters: the fragments of Python's `str` methods used by the program -/

/-- Python `str.isspace`-style whitespace (the `\s` class of `re`): space, tab,
newline, carriage return, vertical tab, form feed. -/
def pyIsSpaceCh (c : Char) : Bool :=
  c == ' ' || c == '\t' || c == '\n' || c == '\r' || c.toNat == 11 || c.toNat == 12

/-- ASCII digit. -/
def isDigitCh (c : Char) : Bool :=
  48 ≤ c.toNat && c.toNat ≤ 57

/-- ASCII letter. -/
def isAsciiAlphaCh (c : Char) : Bool :=
  (65 ≤ c.toNat && c.toNat ≤ 90) || (97 ≤ c.toNat && c.toNat ≤ 122)

/-- Uppercase letter in the ranges the program manipulates (A–Z, À–Þ except ×,
and Ÿ). -/
def pyIsUpperCh (c : Char) : Bool :=
  (65 ≤ c.toNat && c.toNat ≤ 90) ||
  (0xC0 ≤ c.toNat && c.toNat ≤ 0xDE && c.toNat ≠ 0xD7) ||
  c.toNat == 0x178

/-- Lowercase letter in the ranges the program manipulates (a–z, à–þ except ÷,
and ÿ). -/
def pyIsLowerCh (c : Char) : Bool :=
  (97 ≤ c.toNat && c.toNat ≤ 122) ||
  (0xE0 ≤ c.toNat && c.toNat ≤ 0xFE && c.toNat ≠ 0xF7) ||
  c.toNat == 0xFF

/-- A cased character (Python's notion restricted to the ranges above). -/
def pyIsCasedCh (c : Char) : Bool :=
  pyIsUpperCh c || pyIsLowerCh c

/-- Python `str.lower` on one character (ASCII and Latin-1 letters). -/
def pyLowerCh (c : Char) : Char :=
  if 65 ≤ c.toNat && c.toNat ≤ 90 then Char.ofNat (c.toNat + 32)
  else if 0xC0 ≤ c.toNat && c.toNat ≤ 0xDE && c.toNat ≠ 0xD7 then Char.ofNat (c.toNat + 32)
  else if c.toNat == 0x178 then Char.ofNat 0xFF
  else c

/-- Python `str.upper` on one character (ASCII and Latin-1 letters). -/
def pyUpperCh (c : Char) : Char :=
  if 97 ≤ c.toNat && c.toNat ≤ 122 then Char.ofNat (c.toNat - 32)
  else if 0xE0 ≤ c.toNat && c.toNat ≤ 0xFE && c.toNat ≠ 0xF7 then Char.ofNat (c.toNat - 32)
  else if c.toNat == 0xFF then Char.ofNat 0x178
  else c

/-- Word character for `re`'s `\b` and `\w` (letters, digits, underscore). -/
def pyIsWordCh (c : Char) : Bool :=
  isDigitCh c || pyIsCasedCh c || c == '_'

/-! ## Python string operations on `List Char` -/

/-- Python `str.lower`. -/
def pyLowerL (s : List Char) : List Char := s.map pyLowerCh

/-- Python `str.strip()` (no argument: strip whitespace at both ends). -/
def pyStrip (s : List Char) : List Char :=
  ((s.dropWhile pyIsSpaceCh).reverse.dropWhile pyIsSpaceCh).reverse

/-- Python `str.split('\n')`: split at every newline, keeping empty pieces. -/
def splitNl : List Char → List (List Char)
  | [] => [[]]
  | c :: rest =>
    if c == '\n' then [] :: splitNl rest
    else
      match splitNl rest with
      | g :: gs => (c :: g) :: gs
      | [] => [[c]]

/-- Python `str.split()` (no argument: split on whitespace runs, drop empties). -/
def pySplitWs (s : List Char) : List (List Char) :=
  (s.splitOnP pyIsSpaceCh).filter (fun w => ¬ w.isEmpty)

/-- Does `sub` occur in `hay` starting at some suffix of `hay`?  Helper for
`containsSub`. -/
def containsSubGo (sub : List Char) : List Char → Bool
  | [] => sub.isEmpty
  | c :: rest => List.isPrefixOf sub (c :: rest) || containsSubGo sub rest

/-- Python `sub in s` (substring containment). -/
def containsSub (hay sub : List Char) : Bool :=
  containsSubGo sub hay

/-- Python `str.title()`: uppercase every cased character that follows a
non-cased one, lowercase the rest. -/
def pyTitleGo : Bool → List Char → List Char
  | _, [] => []
  | prevCased, c :: rest =>
    (if prevCased then pyLowerCh c else pyUpperCh c) :: pyTitleGo (pyIsCasedCh c) rest

/-- Python `str.title()`. -/
def pyTitleL (s : List Char) : List Char := pyTitleGo false s

/-- Python `str.isupper()`: some cased character, and every cased character
uppercase. -/
def pyIsUpperStr (s : List Char) : Bool :=
  s.any pyIsCasedCh && s.all (fun c => !pyIsCasedCh c || pyIsUpperCh c)

/-- Python `str.capitalize()`: first character uppercased, the rest lowercased. -/
def pyCapitalize : List Char → List Char
  | [] => []
  | c :: rest => pyUpperCh c :: pyLowerL rest

/-- Decimal value of a digit string (the embedding of Python `int` on the
all-digit strings produced by the regexes here). -/
def toNatDigits (s : List Char) : Nat :=
  s.foldl (fun acc c => acc * 10 + (c.toNat - 48)) 0

/-- First-occurrence deduplication, skipping elements already seen. -/
def dedupAcc {α : Type} [DecidableEq α] (seen : List α) : List α → List α
  | [] => []
  | x :: xs => if x ∈ seen then dedupAcc seen xs else x :: dedupAcc (x :: seen) xs

/-- `list(set(xs))` embedded as first-occurrence deduplication. -/
def dedupBy {α : Type} [DecidableEq α] (l : List α) : List α :=
  dedupAcc [] l

/-! ## A backtracking regex engine with CPython `re` semantics -/

/-- Capture store: group index together with start and end position of its last
successful capture on the accepted path. -/
def Caps : Type := List (Nat × Nat × Nat)

/-- Regular-expression AST.  `cls` is a single-character class, `star` is the
greedy Kleene star, `wb` is the word boundary `\b`, `bos` is `^`, `eol` is `$`
(end of string or just before a final trailing newline), `grp` a capture
group. -/
inductive RE where
  | eps
  | cls (p : Char → Bool)
  | seq (a b : RE)
  | alt (a b : RE)
  | star (r : RE)
  | wb
  | bos
  | eol
  | grp (i : Nat) (r : RE)

/-- Is the character at position `q` (if any) a word character? -/
def wordAtB (s : List Char) (q : Nat) : Bool :=
  match s.get? q with
  | some c => pyIsWordCh c
  | none => false

/-- `\b` holds at `p` when exactly one of the neighbouring positions holds a
word character (out of range counts as non-word). -/
def boundaryB (s : List Char) (p : Nat) : Bool :=
  (if p == 0 then false else wordAtB s (p - 1)) != wordAtB s p

/-- Greedy star loop: prefer one more iteration of the body (which must consume
at least one character; an empty-width iteration is discarded, as in CPython),
fall back to exiting the loop.  `m` is the matcher of the body. -/
def starLoop (m : Nat → Caps → (Nat → Caps → Option (Nat × Caps)) → Option (Nat × Caps)) :
    Nat → Nat → Caps → (Nat → Caps → Option (Nat × Caps)) → Option (Nat × Caps)
  | 0, pos, caps, k => k pos caps
  | fuel + 1, pos, caps, k =>
    (m pos caps (fun p c => if p ≤ pos then none else starLoop m fuel p c k)) <|> k pos caps

/-- The backtracking matcher in continuation-passing style.  `matchRE r s pos
caps k` explores the ways `r` can match in `s` starting at `pos`, in CPython
priority order, and returns the first result accepted by the continuation
`k`. -/
def matchRE : RE → List Char → Nat → Caps → (Nat → Caps → Option (Nat × Caps)) → Option (Nat × Caps)
  | .eps, _, pos, caps, k => k pos caps
  | .cls p, s, pos, caps, k =>
    match s.get? pos with
    | some c => if p c then k (pos + 1) caps else none
    | none => none
  | .seq a b, s, pos, caps, k => matchRE a s pos caps (fun p c => matchRE b s p c k)
  | .alt a b, s, pos, caps, k => (matchRE a s pos caps k) <|> (matchRE b s pos caps k)
  | .star r, s, pos, caps, k =>
    starLoop (fun p c k2 => matchRE r s p c k2) (s.length + 1) pos caps k
  | .wb, s, pos, caps, k => if boundaryB s pos then k pos caps else none
  | .bos, _, pos, caps, k => if pos == 0 then k pos caps else none
  | .eol, s, pos, caps, k =>
    if pos == s.length || (pos + 1 == s.length && s.get? pos == some '\n') then k pos caps
    else none
  | .grp i r, s, pos, caps, k => matchRE r s pos caps (fun p c => k p ((i, pos, p) :: c))

/-- Match anchored at a given position; returns end position and captures. -/
def reMatchAt (re : RE) (s : List Char) (pos : Nat) : Option (Nat × Caps) :=
  matchRE re s pos [] (fun p c => some (p, c))

/-- `re.match`: anchored at position 0. -/
def reMatch0 (re : RE) (s : List Char) : Option (Nat × Caps) :=
  reMatchAt re s 0

/-- Leftmost match from position `pos` on (the scan of `re.search`). -/
def reSearchGo (re : RE) (s : List Char) : Nat → Nat → Option (Nat × Nat × Caps)
  | 0, _ => none
  | fuel + 1, pos =>
    match reMatchAt re s pos with
    | some (e, c) => some (pos, e, c)
    | none => if pos < s.length then reSearchGo re s fuel (pos + 1) else none

/-- `re.search`: leftmost match, as (start, end, captures). -/
def reSearch (re : RE) (s : List Char) : Option (Nat × Nat × Caps) :=
  reSearchGo re s (s.length + 1) 0

/-- `re.findall` / `re.finditer`: non-overlapping matches scanning left to
right; after an empty match the scan advances one position. -/
def findallGo (re : RE) (s : List Char) : Nat → Nat → List (Nat × Nat × Caps)
  | 0, _ => []
  | fuel + 1, pos =>
    if s.length < pos then []
    else
      match reSearchGo re s (s.length + 1) pos with
      | none => []
      | some (b, e, c) => (b, e, c) :: findallGo re s fuel (if b < e then e else b + 1)

/-- All non-overlapping matches of `re` in `s`. -/
def reFindAll (re : RE) (s : List Char) : List (Nat × Nat × Caps) :=
  findallGo re s (s.length + 2) 0

/-- The slice `s[b:e]`. -/
def sliceCh (s : List Char) (b e : Nat) : List Char :=
  (s.drop b).take (e - b)

/-- Span of the last capture of group `i`. -/
def getCap (caps : Caps) (i : Nat) : Option (Nat × Nat) :=
  match caps with
  | [] => none
  | (j, b, e) :: rest => if j == i then some (b, e) else getCap rest i

/-! ### Combinators used to transcribe the concrete patterns -/

/-- Literal character. -/
def rChar (c : Char) : RE := RE.cls (fun d => d == c)

/-- Case-insensitive literal character (`(?i)` patterns); `c` given lowercase. -/
def rCIChar (c : Char) : RE := RE.cls (fun d => pyLowerCh d == c)

/-- Sequence of a list of regexes. -/
def rSeq : List RE → RE
  | [] => RE.eps
  | [r] => r
  | r :: rest => RE.seq r (rSeq rest)

/-- Ordered alternation of a list of regexes (leftmost preferred). -/
def rAlts : List RE → RE
  | [] => RE.eps
  | [r] => r
  | r :: rest => RE.alt r (rAlts rest)

/-- Literal string. -/
def rStr (w : String) : RE := rSeq (w.toList.map rChar)

/-- Case-insensitive literal string (give it lowercase). -/
def rCIStr (w : String) : RE := rSeq (w.toList.map rCIChar)

/-- `r?` (greedy). -/
def rOpt (r : RE) : RE := RE.alt r RE.eps

/-- `r{n}`. -/
def rExact (r : RE) : Nat → RE
  | 0 => RE.eps
  | n + 1 => RE.seq r (rExact r n)

/-- `r{0,n}` (greedy), as nested optionals preferring the longer expansion. -/
def rUpTo (r : RE) : Nat → RE
  | 0 => RE.eps
  | n + 1 => rOpt (RE.seq r (rUpTo r n))

/-- `r{m,n}` (greedy). -/
def rRep (r : RE) (m n : Nat) : RE := RE.seq (rExact r m) (rUpTo r (n - m))

/-- `r+` (greedy). -/
def rPlus (r : RE) : RE := RE.seq r (RE.star r)

/-- `r{m,}` (greedy). -/
def rAtLeast (r : RE) (m : Nat) : RE := RE.seq (rExact r m) (RE.star r)

/-! ## Character classes of the concrete patterns -/

/-- `\d`. -/
def dC : RE := RE.cls isDigitCh

/-- `\s`. -/
def wsC : RE := RE.cls pyIsSpaceCh

/-- `[a-zA-Z0-9._%+-]` (email local part). -/
def emailLocalC : RE := RE.cls (fun c =>
  isAsciiAlphaCh c || isDigitCh c || c == '.' || c == '_' || c == '%' || c == '+' || c == '-')

/-- `[a-zA-Z0-9.-]` (email domain). -/
def emailDomC : RE := RE.cls (fun c => isAsciiAlphaCh c || isDigitCh c || c == '.' || c == '-')

/-- `[a-zA-Z]`. -/
def asciiAlphaC : RE := RE.cls isAsciiAlphaCh

/-- `[\s.-]` / `[-.\s]` (phone group separators). -/
def dashDotWsC : RE := RE.cls (fun c => pyIsSpaceCh c || c == '.' || c == '-')

/-- `[1-9]`. -/
def nonZeroDigitC : RE := RE.cls (fun c => 49 ≤ c.toNat && c.toNat ≤ 57)

/-- `[-–]` (ASCII hyphen or en dash). -/
def dashEnC : RE := RE.cls (fun c => c == '-' || c == '–')

/-- `[+0(]`. -/
def phoneStartC : RE := RE.cls (fun c => c == '+' || c == '0' || c == '(')

/-- `[-–—àau]` (the separator class of the date-range pattern). -/
def rangeSepC : RE := RE.cls (fun c =>
  c == '-' || c == '–' || c == '—' || c == 'à' || c == 'a' || c == 'u')

/-- `[:\s-]`. -/
def colonWsDashC : RE := RE.cls (fun c => c == ':' || pyIsSpaceCh c || c == '-')

/-- `[eé]`. -/
def eAccC : RE := RE.cls (fun c => c == 'e' || c == 'é')

/-- `[uû]`. -/
def uAccC : RE := RE.cls (fun c => c == 'u' || c == 'û')

/-- `[eé]` under `(?i)` (matches e, E, é, É). -/
def eAccCIC : RE := RE.cls (fun c => pyLowerCh c == 'e' || pyLowerCh c == 'é')

/-- `[0-2]`. -/
def c02C : RE := RE.cls (fun c => 48 ≤ c.toNat && c.toNat ≤ 50)

/-- `[7-9]`. -/
def c79C : RE := RE.cls (fun c => 55 ≤ c.toNat && c.toNat ≤ 57)

/-- `[A-ZÀ-Ÿ]`: regex code-point range U+0041–U+005A together with
U+00C0–U+0178. -/
def upNameC : RE := RE.cls (fun c =>
  (65 ≤ c.toNat && c.toNat ≤ 90) || (0xC0 ≤ c.toNat && c.toNat ≤ 0x178))

/-- `[a-zà-ÿ\-]`. -/
def lowNameC : RE := RE.cls (fun c =>
  (97 ≤ c.toNat && c.toNat ≤ 122) || (0xE0 ≤ c.toNat && c.toNat ≤ 0xFF) || c == '-')

/-- `[A-ZÀ-Ÿ\-]`. -/
def upNameDashC : RE := RE.cls (fun c =>
  (65 ≤ c.toNat && c.toNat ≤ 90) || (0xC0 ≤ c.toNat && c.toNat ≤ 0x178) || c == '-')

/-- `[A-ZÀ-Ÿa-zà-ÿ\-]`. -/
def mixedNameC : RE := RE.cls (fun c =>
  (65 ≤ c.toNat && c.toNat ≤ 90) || (0xC0 ≤ c.toNat && c.toNat ≤ 0x178) ||
  (97 ≤ c.toNat && c.toNat ≤ 122) || c == '-')

/-! ## The concrete patterns of `parse_cv_metadata` -/

/-- `email_pattern = r'[a-zA-Z0-9._%+-]+@[a-zA-Z0-9.-]+\.[a-zA-Z]{2,}'`. -/
def emailRE : RE :=
  rSeq [rPlus emailLocalC, rChar '@', rPlus emailDomC, rChar '.', rAtLeast asciiAlphaC 2]

/-- French alternative of `phone_pattern`:
`(?:(?:\+|00)33|0)\s*[1-9](?:[\s.-]*\d{2}){4}`. -/
def phoneFrRE : RE :=
  rSeq [RE.alt (RE.seq (RE.alt (rChar '+') (rStr "00")) (rStr "33")) (rChar '0'),
        RE.star wsC, nonZeroDigitC,
        rExact (rSeq [RE.star dashDotWsC, dC, dC]) 4]

/-- Generic alternative of `phone_pattern`:
`(?:\+?\d{1,3}[-.\s]?)?\(?\d{2,4}\)?[-.\s]?\d{2,4}[-.\s]?\d{2,4}(?:[-.\s]?\d{2,4})?`. -/
def phoneGenRE : RE :=
  rSeq [rOpt (rSeq [rOpt (rChar '+'), rRep dC 1 3, rOpt dashDotWsC]),
        rOpt (rChar '('), rRep dC 2 4, rOpt (rChar ')'),
        rOpt dashDotWsC, rRep dC 2 4,
        rOpt dashDotWsC, rRep dC 2 4,
        rOpt (rSeq [rOpt dashDotWsC, rRep dC 2 4])]

/-- `phone_pattern` (French alternative first). -/
def phoneRE : RE := RE.alt phoneFrRE phoneGenRE

/-- `year_range_pattern = r'^\s*\d{4}\s*[-–]\s*\d{4}\s*$'`. -/
def yearRangeAnchRE : RE :=
  rSeq [RE.bos, RE.star wsC, rExact dC 4, RE.star wsC, dashEnC,
        RE.star wsC, rExact dC 4, RE.star wsC, RE.eol]

/-- `year_pattern = r'^\s*(19|20)\d{2}\s*$'`. -/
def yearAnchRE : RE :=
  rSeq [RE.bos, RE.star wsC, RE.grp 1 (RE.alt (rStr "19") (rStr "20")), dC, dC,
        RE.star wsC, RE.eol]

/-- The phone-shape gate `r'^[\s]*[+0(]'`. -/
def phoneStartRE : RE := rSeq [RE.bos, RE.star wsC, phoneStartC]

/-- `(?:ans|années?)`. -/
def ansRE : RE := RE.alt (rStr "ans") (RE.seq (rStr "année") (rOpt (rChar 's')))

/-- `(?:ans|ann[eé]es?)`. -/
def ansAccRE : RE :=
  RE.alt (rStr "ans") (rSeq [rStr "ann", eAccC, rChar 'e', rOpt (rChar 's')])

/-- `(?:ans|ann)`. -/
def ansShortRE : RE := RE.alt (rStr "ans") (rStr "ann")

/-- `(?:years?|yrs)`. -/
def yearsRE : RE := RE.alt (RE.seq (rStr "year") (rOpt (rChar 's'))) (rStr "yrs")

/-- `exp_patterns[0] = r'(\d+)\s*(?:ans|années?)\s*d\'exp[eé]rience'`. -/
def expPat1 : RE :=
  rSeq [RE.grp 1 (rPlus dC), RE.star wsC, ansRE, RE.star wsC,
        rStr "d\x27exp", eAccC, rStr "rience"]

/-- `exp_patterns[1] = r'(\d+)\s*(?:ans|ann[eé]es?)\s*exp'`. -/
def expPat2 : RE :=
  rSeq [RE.grp 1 (rPlus dC), RE.star wsC, ansAccRE, RE.star wsC, rStr "exp"]

/-- `exp_patterns[2] = r'exp[eé]rience\s*(?:professionnelle)?\s*[:\s-]*\s*(\d+)\s*(?:ans|ann)'`. -/
def expPat3 : RE :=
  rSeq [rStr "exp", eAccC, rStr "rience", RE.star wsC, rOpt (rStr "professionnelle"),
        RE.star wsC, RE.star colonWsDashC, RE.star wsC, RE.grp 1 (rPlus dC),
        RE.star wsC, ansShortRE]

/-- `exp_patterns[3] = r'plus\s*de\s*(\d+)\s*(?:ans|ann)'`. -/
def expPat4 : RE :=
  rSeq [rStr "plus", RE.star wsC, rStr "de", RE.star wsC, RE.grp 1 (rPlus dC),
        RE.star wsC, ansShortRE]

/-- `exp_patterns[4] = r'expertise\s*[:\s-]*\s*(\d+)\s*(?:ans|ann)'`. -/
def expPat5 : RE :=
  rSeq [rStr "expertise", RE.star wsC, RE.star colonWsDashC, RE.star wsC,
        RE.grp 1 (rPlus dC), RE.star wsC, ansShortRE]

/-- `exp_patterns[5] = r'(\d+)\s*(?:years?|yrs)\s*(?:of\s*)?exp'`. -/
def expPat6 : RE :=
  rSeq [RE.grp 1 (rPlus dC), RE.star wsC, yearsRE, RE.star wsC,
        rOpt (RE.seq (rStr "of") (RE.star wsC)), rStr "exp"]

/-- `exp_patterns[6] = r'(\d+)\s*(?:years?|yrs)\s*(?:of\s*)?experience'`. -/
def expPat7 : RE :=
  rSeq [RE.grp 1 (rPlus dC), RE.star wsC, yearsRE, RE.star wsC,
        rOpt (RE.seq (rStr "of") (RE.star wsC)), rStr "experience"]

/-- `exp_patterns[7] = r'senior\s*\(\s*(\d+)\s*\+\s*ans\s*\)'`. -/
def expPat8 : RE :=
  rSeq [rStr "senior", RE.star wsC, rChar '(', RE.star wsC, RE.grp 1 (rPlus dC),
        RE.star wsC, rChar '+', RE.star wsC, rStr "ans", RE.star wsC, rChar ')']

/-- The ordered `exp_patterns` list. -/
def expPatterns : List RE :=
  [expPat1, expPat2, expPat3, expPat4, expPat5, expPat6, expPat7, expPat8]

/-- `month_regex`, the bilingual month alternation, in source order. -/
def monthRE : RE := rAlts
  [rStr "janvier",
   rSeq [rChar 'f', eAccC, rStr "vrier"],
   rStr "mars", rStr "avril", rStr "mai", rStr "juin", rStr "juillet",
   rSeq [rStr "ao", uAccC, rChar 't'],
   rStr "septembre", rStr "octobre", rStr "novembre",
   rSeq [rChar 'd', eAccC, rStr "cembre"],
   rStr "january", rStr "february", rStr "march", rStr "april", rStr "may",
   rStr "june", rStr "july", rStr "august", rStr "september", rStr "october",
   rStr "november", rStr "december",
   RE.seq (rStr "jan") (rOpt (rChar 'v')),
   rSeq [rChar 'f', eAccC, rChar 'v', rOpt (rChar 'r')],
   rStr "mar", rStr "apr", rStr "jun", rStr "jul", rStr "aug", rStr "sep",
   rStr "oct", rStr "nov",
   rSeq [rChar 'd', eAccC, rChar 'c']]

/-- `year_regex = r'\b(?:20[0-2]\d|19[7-9]\d)\b'`. -/
def yearBRE : RE :=
  rSeq [RE.wb,
        RE.alt (rSeq [rStr "20", c02C, dC]) (rSeq [rStr "19", c79C, dC]),
        RE.wb]

/-- `present_regex = r'(?:pr[eé]sent|aujourd|maintenant|today|actuel|en cours|now)'`. -/
def presentRE : RE := rAlts
  [rSeq [rStr "pr", eAccC, rStr "sent"],
   rStr "aujourd", rStr "maintenant", rStr "today", rStr "actuel",
   rStr "en cours", rStr "now"]

/-- `range_pattern`, the date-range shape
`({month})?\s*({year})\s*[-–—àau]t?o?\s*({present}|(?:({month})?\s*({year})))`. -/
def rangeRE : RE :=
  rSeq [rOpt (RE.grp 1 monthRE), RE.star wsC, RE.grp 2 yearBRE, RE.star wsC,
        rangeSepC, rOpt (rChar 't'), rOpt (rChar 'o'), RE.star wsC,
        RE.grp 3 (RE.alt presentRE
          (rSeq [rOpt (RE.grp 4 monthRE), RE.star wsC, RE.grp 5 yearBRE]))]

/-- Name pattern 1, title case:
`^[A-ZÀ-Ÿ][a-zà-ÿ\-]+\s+[A-ZÀ-Ÿ][a-zà-ÿ\-]+(?:\s+[A-ZÀ-Ÿ][a-zà-ÿ\-]+)?$`. -/
def namePat1 : RE :=
  rSeq [RE.bos, upNameC, rPlus lowNameC, rPlus wsC, upNameC, rPlus lowNameC,
        rOpt (rSeq [rPlus wsC, upNameC, rPlus lowNameC]), RE.eol]

/-- Name pattern 2, all caps:
`^[A-ZÀ-Ÿ\-]{2,}\s+[A-ZÀ-Ÿ\-]{2,}(?:\s+[A-ZÀ-Ÿ\-]{2,})?$`. -/
def namePat2 : RE :=
  rSeq [RE.bos, rAtLeast upNameDashC 2, rPlus wsC, rAtLeast upNameDashC 2,
        rOpt (RE.seq (rPlus wsC) (rAtLeast upNameDashC 2)), RE.eol]

/-- Name pattern 3, mixed case:
`^[A-ZÀ-Ÿa-zà-ÿ\-]{2,}\s+[A-ZÀ-Ÿa-zà-ÿ\-]{2,}(?:\s+[A-ZÀ-Ÿa-zà-ÿ\-]{2,})?$`. -/
def namePat3 : RE :=
  rSeq [RE.bos, rAtLeast mixedNameC 2, rPlus wsC, rAtLeast mixedNameC 2,
        rOpt (RE.seq (rPlus wsC) (rAtLeast mixedNameC 2)), RE.eol]

/-- `section_patterns[0] = r'(?i)(exp[eé]riences?\s*(?:professionnelles?)?)'`. -/
def sectionPat1 : RE :=
  RE.grp 1 (rSeq [rCIStr "exp", eAccCIC, rCIStr "rience", rOpt (rCIChar 's'),
    RE.star wsC, rOpt (RE.seq (rCIStr "professionnelle") (rOpt (rCIChar 's')))])

/-- `section_patterns[1] = r'(?i)(formations?\s*(?:acad[eé]miques?|diplomes?)?)'`. -/
def sectionPat2 : RE :=
  RE.grp 1 (rSeq [rCIStr "formation", rOpt (rCIChar 's'), RE.star wsC,
    rOpt (RE.alt
      (rSeq [rCIStr "acad", eAccCIC, rCIStr "mique", rOpt (rCIChar 's')])
      (RE.seq (rCIStr "diplome") (rOpt (rCIChar 's'))))])

/-- `section_patterns[2] = r'(?i)(comp[eé]tences?)'`. -/
def sectionPat3 : RE :=
  RE.grp 1 (rSeq [rCIStr "comp", eAccCIC, rCIStr "tence", rOpt (rCIChar 's')])

/-- `section_patterns[3] = r'(?i)(education|academic|skills|languages|projets|hobbies|profil)'`. -/
def sectionPat4 : RE :=
  RE.grp 1 (rAlts [rCIStr "education", rCIStr "academic", rCIStr "skills",
    rCIStr "languages", rCIStr "projets", rCIStr "hobbies", rCIStr "profil"])

/-- The ordered `section_patterns` list. -/
def sectionPatterns : List RE := [sectionPat1, sectionPat2, sectionPat3, sectionPat4]

/-! ## Vocabulary tables (transcribed verbatim from the source) -/

/-- `skill_keywords`. -/
def skillKeywords : List String :=
  ["Python", "JavaScript", "Java", "C++", "C#", "PHP", "Ruby", "Swift",
   "TypeScript", "Go", "Rust", "Kotlin", "SQL",
   "React", "Angular", "Vue", "Django", "Flask", "Docker", "Kubernetes",
   "AWS", "Azure", "GCP", "Terraform", "Ansible"]

/-- `skip_words` (terms disqualifying a line as a name candidate). -/
def skipWords : List String :=
  ["experience", "expérience", "formation", "compétence", "contact", "profil",
   "adresse", "email", "tel", "téléphone", "www", "http", "@", "cv", "curriculum",
   "ingénieur", "développeur", "engineer", "developer", "manager", "consultant",
   "stage", "poste", "emploi", "date", "lieu", "ville", "pays",
   "preparatory", "préparatoire", "cycle", "physic", "chemistry", "math",
   "national", "diploma", "diplôme", "bachelor", "master", "licence",
   "school", "école", "university", "université", "institute", "institut",
   "education", "overview", "profile", "summary", "objective",
   "computer", "science", "engineering", "industrial", "degree",
   "sfax", "tunis", "tunisia", "france", "paris", "lyon"]

/-- `title_keywords` (post-name specialty detection). -/
def titleKeywords : List String :=
  ["ingénieur", "développeur", "engineer", "developer", "analyst", "manager",
   "designer", "consultant", "architecte", "technicien", "expert", "specialist",
   "scientist", "lead", "directeur", "data", "devops", "cloud", "fullstack",
   "full stack", "backend", "frontend", "mobile", "sécurité", "security",
   "réseau", "network", "système", "system", "admin", "integration",
   "intégration", "bi ", "business intelligence"]

/-- The ordered `specialties` catalogue. -/
def specialtiesList : List String :=
  ["Data Integration Engineer", "Machine Learning Engineer",
   "Data Scientist", "Data Analyst", "Data Engineer",
   "Business Intelligence", "BI Developer", "BI Analyst",
   "Site Reliability Engineer", "Full Stack Developer", "Fullstack Developer",
   "Développeur Fullstack", "Développeur Full Stack",
   "Ingénieur Data", "Ingénieur Cloud", "Ingénieur DevOps", "Ingénieur Système",
   "Ingénieur Réseau", "Ingénieur Sécurité", "Ingénieur Logiciel",
   "Cloud Engineer", "Cloud Architect", "Security Engineer",
   "Développeur Backend", "Backend Developer", "Développeur Frontend",
   "Frontend Developer",
   "Développeur Mobile", "iOS Developer", "Android Developer",
   "Chef de projet", "Project Manager", "Product Manager", "Scrum Master",
   "UX Designer", "UI Designer", "UX/UI Designer", "UX/UI",
   "DevOps", "SysOps",
   "Développeur", "Ingénieur", "Designer", "Consultant", "Architecte",
   "Manager", "Analyste", "Administrateur", "Technicien",
   "Commercial", "Comptable", "RH", "Marketing"]

/-- `academic_keywords` (lines near these contribute no work interval). -/
def academicKeywords : List String :=
  ["université", "university", "master", "licence", "bachelor", "baccalauréat",
   "bac ", "bac+",
   "diplôme", "école", "school", "formation", "étudiant", "student",
   "enseignement", "degree",
   "cursus", "académique", "education", "msc ", "phd", "doctorat",
   "professeur", "professor",
   "enseignant", "assistant", "lecturer", "stage", "internship", "trainee",
   "apprenti"]

/-- `months_map` (3-letter month prefixes; note the English keys `dec` and
`may` are absent — only the accented `déc` and French `mai` exist). -/
def monthsMap : List (String × Nat) :=
  [("jan", 1), ("fév", 2), ("mar", 3), ("avr", 4), ("mai", 5), ("jui", 6),
   ("jul", 7), ("aoû", 8), ("sep", 9), ("oct", 10), ("nov", 11), ("déc", 12),
   ("feb", 2), ("apr", 4), ("jun", 6), ("aug", 8)]

/-- `common_words` (stop words of name pattern 3). -/
def commonWords : List String :=
  ["les", "des", "pour", "dans", "avec", "sur", "par", "une", "the", "and", "for"]

/-- The present-synonym list of the end-of-range check in stage 2. -/
def presentSyns : List String :=
  ["present", "aujourd", "maintenant", "today", "actuel", "en cours", "now"]

/-! ## The components of `parse_cv_metadata` -/

/-- The profile record produced by `parse_cv_metadata`. -/
structure Metadata where
  emails : List String
  phones : List String
  skills : List String
  sections : List String
  name : String
  specialty : String
  experience : String
  deriving DecidableEq, Repr

/-- The all-default profile. -/
def defaultMeta : Metadata :=
  ⟨[], [], [], [], "Inconnu", "À définir", "0"⟩

/-- The early-exit guard: `not text or not text.strip() or "[ERREUR" in text`. -/
def guardB (t : List Char) : Bool :=
  t.isEmpty || (pyStrip t).isEmpty || containsSub t ("[ERREUR".toList)

/-- Embedding of `re.search(r'\b' + re.escape(skill.lower()) + r'\b', text_lower)`
for a literal word `w`: the pattern `\b w \b` has no quantifier, so the search
succeeds exactly when `w` occurs at some position with a word boundary on both
sides. -/
def wordFoundB (w s : List Char) : Bool :=
  (List.range (s.length + 1)).any (fun i =>
    List.isPrefixOf w (s.drop i) && boundaryB s i && boundaryB s (i + w.length))

/-- The skill tagger: keep the keywords whose lowercase form occurs
boundary-anchored in the lowercased text. -/
def skillsOf (tl : List Char) : List String :=
  skillKeywords.filter (fun k => wordFoundB (pyLowerL k.toList) tl)

/-- `list(set(re.findall(email_pattern, text)))`. -/
def emailsOf (t : List Char) : List String :=
  (dedupBy ((reFindAll emailRE t).map (fun m => sliceCh t m.1 m.2.1))).map
    (fun l => String.mk l)

/-- The four post-filters applied to a stripped phone candidate. -/
def phoneChecksB (q : List Char) : Bool :=
  8 ≤ (q.filter isDigitCh).length &&
  (reMatch0 yearRangeAnchRE q).isNone &&
  (reMatch0 yearAnchRE q).isNone &&
  (reMatch0 phoneStartRE q).isSome

/-- Phone extraction: find candidates, strip, filter, deduplicate, cap at 5. -/
def phonesOf (t : List Char) : List String :=
  let cands := (reFindAll phoneRE t).map (fun m => sliceCh t m.1 m.2.1)
  let filtered := cands.filterMap (fun p =>
    let q := pyStrip p
    if phoneChecksB q then some q else none)
  ((dedupBy filtered).take 5).map (fun l => String.mk l)

/-- Section detection: first match's group of each pattern, stripped and
title-cased, deduplicated. -/
def sectionsOf (t : List Char) : List String :=
  let raws := sectionPatterns.filterMap (fun p =>
    match reFindAll p t with
    | [] => none
    | m :: _ => (getCap m.2.2 1).map (fun be => sliceCh t be.1 be.2))
  (dedupBy (raws.map (fun v => pyTitleL (pyStrip v)))).map (fun l => String.mk l)

/-- `[l.strip() for l in text.split('\n') if l.strip()]`. -/
def linesOfL (t : List Char) : List (List Char) :=
  ((splitNl t).map pyStrip).filter (fun l => ¬ l.isEmpty)

/-- One separator attempt of heuristic 0 on a line: split at the first
occurrence of `sep`, validate the left part (2–3 words, < 40 characters, no
skip word, every word starting uppercase); on success return the name part and,
when the right part is non-empty and longer than 3 characters, the specialty. -/
def trySep (sep : Char) (line : List Char) : Option (List Char × Option (List Char)) :=
  if line.contains sep then
    let nameP := pyStrip (line.takeWhile (fun c => ¬ c == sep))
    let titleP := pyStrip ((line.dropWhile (fun c => ¬ c == sep)).drop 1)
    let ws := pySplitWs nameP
    if 2 ≤ ws.length && ws.length ≤ 3 && nameP.length < 40 then
      if skipWords.any (fun sw => containsSub (pyLowerL nameP) sw.toList) then none
      else if ws.all (fun w => match w with | [] => true | c :: _ => pyIsUpperCh c) then
        some (nameP, if ¬ titleP.isEmpty && 3 < titleP.length then some titleP else none)
      else none
    else none
  else none

/-- Heuristic 0 on one line: try the separators `|`, `–`, `—` in order. -/
def sepCheckLine (line : List Char) : Option (List Char × Option (List Char)) :=
  (['|', '–', '—'] : List Char).findSome? (fun sep => trySep sep line)

/-- Heuristic 0 scan over at most `fuel` lines (the code scans `lines[:10]`),
tracking the line index. -/
def heur0Go : Nat → Nat → List (List Char) → Option (Nat × List Char × Option (List Char))
  | 0, _, _ => none
  | _, _, [] => none
  | fuel + 1, i, l :: ls =>
    match sepCheckLine l with
    | some (nm, t) => some (i, nm, t)
    | none => heur0Go fuel (i + 1) ls

/-- Heuristic 0: `Name | Title` detection over the first 10 lines. -/
def heur0 (lines : List (List Char)) : Option (Nat × List Char × Option (List Char)) :=
  heur0Go 10 0 lines

/-- Word normalization of name pattern 3:
`w.capitalize() if w.isupper() and len(w) > 2 else w`. -/
def fixWord (w : List Char) : List Char :=
  if pyIsUpperStr w && 2 < w.length then pyCapitalize w else w

/-- Heuristic 1 on one line: 2–3 words, < 50 characters, no skip word, then the
three casing patterns in order. -/
def heur1Line (line : List Char) : Option (List Char) :=
  let ws := pySplitWs line
  if 2 ≤ ws.length && ws.length ≤ 3 && line.length < 50 then
    if skipWords.any (fun sw => containsSub (pyLowerL line) sw.toList) then none
    else if (reMatch0 namePat1 line).isSome then some line
    else if (reMatch0 namePat2 line).isSome then some (pyTitleL line)
    else if (reMatch0 namePat3 line).isSome
        && ws.any (fun w => match w with | [] => false | c :: _ => pyIsUpperCh c)
        && ¬ ws.any (fun w => commonWords.any (fun cw => cw.toList == pyLowerL w)) then
      some (List.intercalate ([' '] : List Char) (ws.map fixWord))
    else none
  else none

/-- Heuristic 1 scan over at most `fuel` lines (the code scans `lines[:15]`). -/
def heur1Go : Nat → Nat → List (List Char) → Option (Nat × List Char)
  | 0, _, _ => none
  | _, _, [] => none
  | fuel + 1, i, l :: ls =>
    match heur1Line l with
    | some nm => some (i, nm)
    | none => heur1Go fuel (i + 1) ls

/-- Heuristic 1: line-shape name detection over the first 15 lines. -/
def heur1 (lines : List (List Char)) : Option (Nat × List Char) :=
  heur1Go 15 0 lines

/-- Post-name specialty heuristic: examine up to 3 lines after the name line
for a 4–79 character line not ending in `.` containing a title keyword. -/
def postName (lines : List (List Char)) (nameIdx : Nat) : Option (List Char) :=
  if nameIdx + 1 < lines.length then
    (List.range' (nameIdx + 1) (min (nameIdx + 4) lines.length - (nameIdx + 1))).findSome?
      (fun j =>
        let line := lines.getD j []
        if 3 < line.length && line.length < 80 && ¬ (line.getLast? == some '.') then
          if titleKeywords.any (fun kw => containsSub (pyLowerL line) kw.toList) then
            some line
          else none
        else none)
  else none

/-- Catalogue fallback of the specialty detector: first catalogue entry found
in the first 500 characters of the lowercased text, else first found anywhere,
else the default. -/
def specCatalog (tl : List Char) : String :=
  let header := tl.take 500
  match specialtiesList.find? (fun sp => containsSub header (pyLowerL sp.toList)) with
  | some sp => sp
  | none =>
    match specialtiesList.find? (fun sp => containsSub tl (pyLowerL sp.toList)) with
    | some sp => sp
    | none => "À définir"

/-- Name and specialty detection: heuristic 0, then heuristic 1, then the
post-name and catalogue specialty heuristics, mirroring the code's
`found_spec`/`name_index` control flow. -/
def nameSpec (tl : List Char) (lines : List (List Char)) : String × String :=
  match heur0 lines with
  | some (_, nm, some t) => (String.mk nm, String.mk t)
  | some (i, nm, none) =>
    (String.mk nm,
     match postName lines i with
     | some s => String.mk s
     | none => specCatalog tl)
  | none =>
    match heur1 lines with
    | some (i, nm) =>
      (String.mk nm,
       match postName lines i with
       | some s => String.mk s
       | none => specCatalog tl)
    | none => ("Inconnu", specCatalog tl)

/-- The explicit-mention scan: first pattern of `exp_patterns` matching the
lowercased text supplies the captured integer text. -/
def expScan (tl : List Char) : Option String :=
  expPatterns.findSome? (fun p =>
    (reSearch p tl).bind (fun m =>
      (getCap m.2.2 1).map (fun be => String.mk (sliceCh tl be.1 be.2))))

/-- One execution of the explicit-mention block: overwrite `cur` when the scan
matches. -/
def expStage1 (tl : List Char) (cur : String) : String :=
  match expScan tl with
  | some v => v
  | none => cur

/-- `months_map.get(m_str[:3] if m_str else '', 1)`. -/
def monthsLookup : Option (List Char) → Nat
  | none => 1
  | some m =>
    match monthsMap.find? (fun kv => kv.1.toList == m.take 3) with
    | some kv => kv.2
    | none => 1

/-- Date-range extraction on one lowercased line: every `range_pattern` match
yields a `(start, end)` pair of absolute month indices when its duration lies
strictly between 0 and 480 months. -/
def extractRanges (now : Nat × Nat) (low : List Char) : List (Nat × Nat) :=
  (reFindAll rangeRE low).filterMap (fun m =>
    let g := fun (n : Nat) => (getCap m.2.2 n).map (fun be => sliceCh low be.1 be.2)
    match g 2 with
    | none => none
    | some y1s =>
      let y1 := toNatDigits y1s
      let m1 := monthsLookup (g 1)
      let endPart := (g 3).getD []
      let res : Option (Nat × Nat) :=
        if presentSyns.any (fun p => containsSub endPart p.toList) then
          some (now.1, now.2)
        else
          match g 5 with
          | some y2s => some (toNatDigits y2s, monthsLookup (g 4))
          | none => none
      match res with
      | none => none
      | some (y2, m2) =>
        let dur : Int := ((y2 : Int) - y1) * 12 + ((m2 : Int) - m1)
        if 0 < dur ∧ dur < 480 then some (y1 * 12 + m1, y2 * 12 + m2) else none)

/-- The academic-context check of stage 2: the line and the 3 lines above it,
lowercased and joined with spaces, must contain no academic keyword. -/
def contextHasAcademic (lines : List (List Char)) (i : Nat) : Bool :=
  let ctx := (List.range' (i - 3) (i + 1 - (i - 3))).foldr
    (fun j acc => pyLowerL (lines.getD j []) ++ ([' '] : List Char) ++ acc) []
  academicKeywords.any (fun kw => containsSub ctx kw.toList)

/-- The date-range intervals contributed by line `i`: none when the academic
context check fires, else the ranges extracted from the lowercased line. -/
def periodsOfLine (now : Nat × Nat) (lines : List (List Char)) (i : Nat) :
    List (Nat × Nat) :=
  if contextHasAcademic lines i then []
  else extractRanges now (pyLowerL (lines.getD i []))

/-- Pass 1 of stage 2: collect the intervals of every line. -/
def collectPeriods (now : Nat × Nat) (lines : List (List Char)) : List (Nat × Nat) :=
  (List.range lines.length).flatMap (fun i => periodsOfLine now lines i)

/-- Lexicographic comparison of interval pairs (`list.sort()` on 2-tuples). -/
def pairLeB (a b : Nat × Nat) : Bool :=
  a.1 < b.1 || (a.1 == b.1 && a.2 ≤ b.2)

/-- Insertion step of the sort. -/
def insertPair (x : Nat × Nat) : List (Nat × Nat) → List (Nat × Nat)
  | [] => [x]
  | y :: ys => if pairLeB x y then x :: y :: ys else y :: insertPair x ys

/-- `periods.sort()`. -/
def sortPairs : List (Nat × Nat) → List (Nat × Nat)
  | [] => []
  | x :: xs => insertPair x (sortPairs xs)

/-- Pass 2 of stage 2, transcribed loop state: accumulated merged months and
the current `(curr_start, curr_end)` window (`-1` the initial sentinel). -/
def mergeGo : Int → Int → Int → List (Nat × Nat) → Int
  | m, cs, ce, [] => m + (ce - cs)
  | m, cs, ce, (s, e) :: rest =>
    if cs == -1 then mergeGo m (s : Int) (e : Int) rest
    else if (s : Int) ≤ ce then mergeGo m cs (max ce (e : Int)) rest
    else mergeGo (m + (ce - cs)) (s : Int) (e : Int) rest

/-- Total merged months of a sorted interval list. -/
def mergedMonths (ps : List (Nat × Nat)) : Int :=
  mergeGo 0 (-1) (-1) ps

/-- Python `round(m / 12)` for the integer month totals arising here: exact
round-half-to-even of the rational `m / 12` (the IEEE double computation agrees
on every reachable magnitude). -/
def pyRoundDiv12 (m : Int) : Int :=
  let q := m.ediv 12
  let r := m.emod 12
  if r < 6 then q else if 6 < r then q + 1 else if q % 2 == 0 then q else q + 1

/-- Stage 3, the earliest-year fallback: years found on non-academic lines,
kept when in `(1980, current_year]`; experience is `current_year - min`. -/
def stage3Exp (now : Nat × Nat) (rawLines : List (List Char)) : String :=
  let ys := rawLines.flatMap (fun l =>
    let low := pyLowerL l
    if academicKeywords.any (fun kw => containsSub low kw.toList) then []
    else (reFindAll yearBRE low).map (fun m => toNatDigits (sliceCh low m.1 m.2.1)))
  let valid := ys.filter (fun y => 1980 < y && y ≤ now.1)
  match valid with
  | [] => "0"
  | v :: vs => toString (now.1 - vs.foldl Nat.min v)

/-- Stages 2 and 3 of the experience estimator, attempted only when the
explicit-mention result `e` is still `"0"`. -/
def expFinal (now : Nat × Nat) (raw : List Char) (e : String) : String :=
  if e ≠ "0" then e
  else
    let rawLines := splitNl raw
    let periods := collectPeriods now rawLines
    let e2 :=
      if periods.isEmpty then e
      else toString (Int.toNat (max 1 (pyRoundDiv12 (mergedMonths (sortPairs periods)))))
    if e2 ≠ "0" then e2 else stage3Exp now rawLines

/-- The body of `parse_cv_metadata`, parameterized by the result `e1` of the
explicit-mention block (which the caller runs once or twice). -/
def metaOf (now : Nat × Nat) (t : List Char) (e1 : String) : Metadata :=
  if guardB t then defaultMeta
  else
    let tl := pyLowerL t
    let lines := linesOfL t
    let ns := nameSpec tl lines
    { emails := emailsOf t
      phones := phonesOf t
      skills := skillsOf tl
      sections := sectionsOf t
      name := ns.1
      specialty := ns.2
      experience := expFinal now t e1 }

/-- `parse_cv_metadata`, with the wall clock explicit: `now = (year, month)`.
The explicit-mention block appears twice in the source; accordingly the
stage-1 result is the twofold application of `expStage1`. -/
def parse (now : Nat × Nat) (text : String) : Metadata :=
  metaOf now text.toList
    (expStage1 (pyLowerL text.toList) (expStage1 (pyLowerL text.toList) "0"))

/-- The same parser with the duplicated explicit-mention block executed once
(the deduplicated program of the refinement claim). -/
def parseSingleScan (now : Nat × Nat) (text : String) : Metadata :=
  metaOf now text.toList (expStage1 (pyLowerL text.toList) "0")

/-- A standalone, word-boundary-delimited occurrence of the word `w` in `s`:
the characters of `w` appear at some position `i` with `\b` holding on both
sides. -/
def StandaloneOcc (w s : List Char) : Prop :=
  ∃ i, i < s.length ∧
    (List.isPrefixOf w (s.drop i) = true ∧
     boundaryB s i = true ∧ boundaryB s (i + w.length) = true)

/-- `StandaloneOcc` is a bounded existential, hence decidable. -/
instance (w s : List Char) : Decidable (StandaloneOcc w s) :=
  decidable_of_iff
    (∃ i ∈ List.range s.length,
      List.isPrefixOf w (s.drop i) = true ∧
      boundaryB s i = true ∧ boundaryB s (i + w.length) = true)
    (by
      unfold StandaloneOcc
      constructor
      · rintro ⟨i, hi, hc⟩
        exact ⟨i, List.mem_range.mp hi, hc⟩
      · rintro ⟨i, hi, hc⟩
        exact ⟨i, List.mem_range.mpr hi, hc⟩)

/-! ## Helper lemmas -/

/-- `List.get?` after `List.drop`. -/
theorem get?_drop_add (l : List Char) (i j : Nat) :
    (l.drop i).get? j = l.get? (i + j) := by
  rw [List.get?_eq_getElem?, List.get?_eq_getElem?, List.getElem?_drop]

/-- The substring check agrees with list infix. -/
theorem containsSub_correct {hay sub : List Char} :
    containsSub hay sub = true ↔ sub <:+: hay := by
  unfold containsSub
  induction hay with
  | nil => simp [containsSubGo, List.isEmpty_iff, List.infix_nil]
  | cons c rest ih =>
    simp only [containsSubGo, Bool.or_eq_true, ih, List.infix_cons_iff,
      List.isPrefixOf_iff_prefix]

/-- Each piece of the space-joined fold is an infix of the whole. -/
theorem infix_foldr_join (f : Nat → List Char) (js : List Nat) (j : Nat)
    (hj : j ∈ js) :
    f j <:+: js.foldr (fun k acc => f k ++ ([' '] : List Char) ++ acc) [] := by
  induction js with
  | nil => cases hj
  | cons k ks ih =>
    rcases List.mem_cons.mp hj with rfl | hj2
    · exact ⟨[], [' '] ++ ks.foldr (fun k acc => f k ++ ([' '] : List Char) ++ acc) [],
        by simp⟩
    · exact (ih hj2).trans (List.suffix_append _ _).isInfix

/-- An occurrence of a non-empty `w` at `i` forces `i` inside the text. -/
theorem lt_of_occurrence {w s : List Char} {i : Nat} (hw : w ≠ [])
    (h : List.isPrefixOf w (s.drop i) = true) : i < s.length := by
  have hpre : w <+: s.drop i := List.isPrefixOf_iff_prefix.mp h
  have hlen : w.length ≤ (s.drop i).length := hpre.length_le
  have hpos : 0 < w.length := List.length_pos.mpr hw
  rw [List.length_drop] at hlen
  omega

/-- The boundary-anchored word search succeeds exactly when a standalone
occurrence exists. -/
theorem wordFoundB_iff {w s : List Char} (hw : w ≠ []) :
    wordFoundB w s = true ↔ StandaloneOcc w s := by
  unfold wordFoundB StandaloneOcc
  rw [List.any_eq_true]
  constructor
  · rintro ⟨i, -, hb⟩
    rw [Bool.and_eq_true, Bool.and_eq_true] at hb
    exact ⟨i, lt_of_occurrence hw hb.1.1, hb.1.1, hb.1.2, hb.2⟩
  · rintro ⟨i, hi, h1, h2, h3⟩
    refine ⟨i, List.mem_range.mpr (by omega), ?_⟩
    rw [Bool.and_eq_true, Bool.and_eq_true]
    exact ⟨⟨h1, h2⟩, h3⟩

/-- Membership survives `dedupAcc`. -/
theorem mem_of_mem_dedupAcc {α : Type} [DecidableEq α] {p : α} :
    ∀ (seen l : List α), p ∈ dedupAcc seen l → p ∈ l := by
  intro seen l
  induction l generalizing seen with
  | nil => intro h; simp [dedupAcc] at h
  | cons x xs ih =>
    intro h
    by_cases hx : x ∈ seen
    · simp only [dedupAcc, if_pos hx] at h
      exact List.mem_cons_of_mem x (ih seen h)
    · simp only [dedupAcc, if_neg hx] at h
      rcases List.mem_cons.mp h with h | h
      · exact h ▸ List.mem_cons_self x xs
      · exact List.mem_cons_of_mem x (ih (x :: seen) h)

/-- `dedupAcc` avoids the seen set and produces no duplicates. -/
theorem nodup_dedupAcc {α : Type} [DecidableEq α] :
    ∀ (l seen : List α), (∀ p ∈ dedupAcc seen l, p ∉ seen) ∧ (dedupAcc seen l).Nodup := by
  intro l
  induction l with
  | nil => intro seen; simp [dedupAcc]
  | cons x xs ih =>
    intro seen
    by_cases hx : x ∈ seen
    · simpa only [dedupAcc, if_pos hx] using ih seen
    · simp only [dedupAcc, if_neg hx]
      obtain ⟨hnotin, hnodup⟩ := ih (x :: seen)
      constructor
      · intro p hp hpseen
        rcases List.mem_cons.mp hp with rfl | hp
        · exact hx hpseen
        · exact hnotin p hp (List.mem_cons_of_mem x hpseen)
      · refine List.nodup_cons.mpr ⟨?_, hnodup⟩
        intro hxin
        exact hnotin x hxin (List.mem_cons_self x seen)

/-- The deduplicated list has no duplicates. -/
theorem nodup_dedupBy {α : Type} [DecidableEq α] (l : List α) : (dedupBy l).Nodup :=
  (nodup_dedupAcc l []).2

/-- Membership survives `dedupBy`. -/
theorem mem_of_mem_dedupBy {α : Type} [DecidableEq α] {p : α} {l : List α}
    (h : p ∈ dedupBy l) : p ∈ l :=
  mem_of_mem_dedupAcc [] l h

/-- The second run of the explicit-mention block never changes the result of
the first. -/
theorem expStage1_idem (tl : List Char) (c : String) :
    expStage1 tl (expStage1 tl c) = expStage1 tl c := by
  unfold expStage1
  cases h : expScan tl <;> simp

/-- First-success computation of heuristic 0 over an explicit split of the
line list. -/
theorem heur0Go_append (pre : List (List Char)) (l : List Char)
    (rest : List (List Char)) (nm : List Char) (t : Option (List Char)) :
    ∀ (fuel i : Nat), pre.length < fuel →
    (∀ x ∈ pre, sepCheckLine x = none) →
    sepCheckLine l = some (nm, t) →
    heur0Go fuel i (pre ++ l :: rest) = some (i + pre.length, nm, t) := by
  induction pre with
  | nil =>
    intro fuel i hf _ hsep
    cases fuel with
    | zero => omega
    | succ fuel => simp [heur0Go, hsep]
  | cons x pre ih =>
    intro fuel i hf hpre hsep
    cases fuel with
    | zero => simp at hf
    | succ fuel =>
      have hx : sepCheckLine x = none := hpre x (List.mem_cons_self x pre)
      have hlt : pre.length < fuel := by
        simp only [List.length_cons] at hf
        omega
      have hrec := ih fuel (i + 1) hlt
        (fun y hy => hpre y (List.mem_cons_of_mem x hy)) hsep
      have harith : i + 1 + pre.length = i + (x :: pre).length := by
        simp only [List.length_cons]
        omega
      rw [harith] at hrec
      simp only [List.cons_append, heur0Go, hx]
      exact hrec

/-! ## The claims -/

set_option maxRecDepth 40000

/-- C1: for every input text that is empty, empty after trimming whitespace,
or contains the sentinel substring `"[ERREUR"` anywhere, `parse_cv_metadata`
returns the all-default profile (empty emails, phones, skills and sections;
default name; default specialty; experience `"0"`), with no partial extraction
attempted. -/
theorem claim1_default_on_empty_or_sentinel (now : Nat × Nat) (text : String)
    (h : text.toList = [] ∨ pyStrip text.toList = [] ∨
         containsSub text.toList ("[ERREUR".toList) = true) :
    parse now text = defaultMeta := by
  have hg : guardB text.toList = true := by
    unfold guardB
    rcases h with h | h | h
    · rw [h]
      rfl
    · rw [h]
      simp [List.isEmpty]
    · rw [h]
      simp
  unfold parse metaOf
  rw [if_pos hg]

/-- Witness for C1 at the sentinel input `"[ERREUR: scan]"`. -/
theorem claim1_witness :
    ("[ERREUR: scan]".toList = [] ∨ pyStrip "[ERREUR: scan]".toList = [] ∨
     containsSub "[ERREUR: scan]".toList ("[ERREUR".toList) = true) ∧
    parse (2025, 1) "[ERREUR: scan]" = defaultMeta :=
  ⟨Or.inr (Or.inr (by decide)),
   claim1_default_on_empty_or_sentinel (2025, 1) "[ERREUR: scan]"
     (Or.inr (Or.inr (by decide)))⟩

/-- C2, evaluation of the code at the claim's example: the claim expects the
overlapping ranges `"Jan 2015 - Dec 2016"` / `"Jan 2016 - Dec 2018"` to merge
into one 2015–2018 span of 47 months and yield `"4"`.  The code's `months_map`
has no ASCII `"dec"` key (only the accented `"déc"`), so both `"Dec"` endpoints
resolve to month 1; the merged span is Jan 2015 – Jan 2018, 36 months, and the
program answers `"3"`. -/
theorem claim2_merge_example_code_eval :
    (parse (2025, 10) "Jan 2015 - Dec 2016\nJan 2016 - Dec 2018").experience = "3" := by
  decide

/-- C3: in the date-interval stage, a line contributes no interval when it, or
any of the 3 lines immediately preceding it, contains an academic keyword from
the bilingual list. -/
theorem claim3_academic_context_no_interval (now : Nat × Nat)
    (lines : List (List Char)) (i : Nat)
    (h : ∃ j, i - 3 ≤ j ∧ j ≤ i ∧ ∃ kw ∈ academicKeywords,
         containsSub (pyLowerL (lines.getD j [])) kw.toList = true) :
    periodsOfLine now lines i = [] := by
  obtain ⟨j, hj1, hj2, kw, hkwmem, hkw⟩ := h
  have hctx : contextHasAcademic lines i = true := by
    unfold contextHasAcademic
    rw [List.any_eq_true]
    refine ⟨kw, hkwmem, ?_⟩
    rw [containsSub_correct]
    have hline : kw.toList <:+: pyLowerL (lines.getD j []) :=
      containsSub_correct.mp hkw
    refine hline.trans ?_
    exact infix_foldr_join (fun j => pyLowerL (lines.getD j [])) _ j
      (List.mem_range'_1.mpr (by omega))
  simp [periodsOfLine, hctx]

/-- Witness for C3 at the line `"Master degree, 2015-2020"`: the academic check
fires, the line contributes no interval, although the unguarded extraction does
match the date-range shape on it. -/
theorem claim3_witness :
    (∃ j, 0 - 3 ≤ j ∧ j ≤ 0 ∧ ∃ kw ∈ academicKeywords,
      containsSub (pyLowerL ((["Master degree, 2015-2020".toList]).getD j []))
        kw.toList = true) ∧
    periodsOfLine (2025, 10) ["Master degree, 2015-2020".toList] 0 = [] ∧
    extractRanges (2025, 10) (pyLowerL "Master degree, 2015-2020".toList) ≠ [] :=
  ⟨⟨0, by omega, Nat.le_refl 0, "master", by decide, by decide⟩,
   claim3_academic_context_no_interval (2025, 10) ["Master degree, 2015-2020".toList] 0
     ⟨0, by omega, Nat.le_refl 0, "master", by decide, by decide⟩,
   by decide⟩

/-- C4, counterexample: on `"0 ans d'expérience\njan 2015 - dec 2016"` the
first explicit-mention pattern matches with captured text `"0"`, yet the final
experience is `"1"`, because the stage-2 gate `experience == '0'` cannot tell
the captured `"0"` from "no value" and the date-interval stage runs anyway. -/
theorem claim4_counterexample :
    expScan (pyLowerL "0 ans d\x27expérience\njan 2015 - dec 2016".toList) = some "0" ∧
    (parse (2025, 10) "0 ans d\x27expérience\njan 2015 - dec 2016").experience = "1" :=
  ⟨by decide, by decide⟩

/-- C4, amended: when the guard passes, the ordered explicit-mention scan
matches with captured text `v`, and `v` is not the literal `"0"`, the final
experience is exactly `v` — the date-interval and earliest-year stages do not
run. -/
theorem claim4_amended_explicit_mention_wins (now : Nat × Nat) (text : String)
    (v : String)
    (hg : guardB text.toList = false)
    (hs : expScan (pyLowerL text.toList) = some v)
    (hv : v ≠ "0") :
    (parse now text).experience = v := by
  unfold parse metaOf
  have hg2 : guardB text.data = false := hg
  rw [if_neg (by simp [hg2])]
  show expFinal now text.toList
    (expStage1 (pyLowerL text.toList) (expStage1 (pyLowerL text.toList) "0")) = v
  have h1 : expStage1 (pyLowerL text.toList) (expStage1 (pyLowerL text.toList) "0") = v := by
    unfold expStage1
    rw [hs]
  rw [h1]
  unfold expFinal
  rw [if_pos hv]

/-- Witness for C4's amended statement at `"5 ans d'expérience"`. -/
theorem claim4_witness :
    guardB "5 ans d\x27expérience".toList = false ∧
    expScan (pyLowerL "5 ans d\x27expérience".toList) = some "5" ∧
    ("5" : String) ≠ "0" ∧
    (parse (2025, 1) "5 ans d\x27expérience").experience = "5" :=
  ⟨by decide, by decide, by decide,
   claim4_amended_explicit_mention_wins (2025, 1) "5 ans d\x27expérience" "5"
     (by decide) (by decide) (by decide)⟩

/-- C8, counterexample: the experience estimator reads the current date, so two
calls on the same text at different clock readings can differ — here
`"jan 2020 - present"` parsed in January 2024 gives experience `"4"` and in
January 2025 gives `"5"`. -/
theorem claim8_counterexample_clock :
    parse (2024, 1) "jan 2020 - present" ≠ parse (2025, 1) "jan 2020 - present" := by
  intro h
  exact absurd (congrArg Metadata.experience h) (by decide)

/-- C8, amended: the parser is deterministic for a fixed clock reading — it is
a pure function of the current date and the text, with no hidden state or
randomness, so two calls with the same clock yield identical profiles. -/
theorem claim8_amended_deterministic_fixed_clock (now : Nat × Nat) (text : String) :
    parse now text = parse now text := rfl

/-- When the guard fails, `parse` is the record of the component results. -/
theorem parse_eq_of_guard_false (now : Nat × Nat) (text : String)
    (hg : guardB text.toList = false) :
    parse now text =
      { emails := emailsOf text.toList
        phones := phonesOf text.toList
        skills := skillsOf (pyLowerL text.toList)
        sections := sectionsOf text.toList
        name := (nameSpec (pyLowerL text.toList) (linesOfL text.toList)).1
        specialty := (nameSpec (pyLowerL text.toList) (linesOfL text.toList)).2
        experience := expFinal now text.toList
          (expStage1 (pyLowerL text.toList) (expStage1 (pyLowerL text.toList) "0")) } := by
  unfold parse metaOf
  have hg2 : guardB text.data = false := hg
  rw [if_neg (by simp [hg2])]

/-- When the guard fires, `parse` is the default profile. -/
theorem parse_eq_default_of_guard_true (now : Nat × Nat) (text : String)
    (hg : guardB text.toList = true) :
    parse now text = defaultMeta := by
  unfold parse metaOf
  rw [if_pos hg]

/-- Every phone entry passed the post-filters; the list is deduplicated and
capped at 5. -/
theorem phonesOf_spec (t : List Char) :
    (∀ p ∈ phonesOf t, phoneChecksB p.toList = true) ∧
    (phonesOf t).Nodup ∧ (phonesOf t).length ≤ 5 := by
  unfold phonesOf
  refine ⟨?_, ?_, ?_⟩
  · intro p hp
    simp only [List.mem_map] at hp
    obtain ⟨q, hq, rfl⟩ := hp
    have hq1 := mem_of_mem_dedupBy (List.take_subset 5 _ hq)
    simp only [List.mem_filterMap] at hq1
    obtain ⟨a, _, hqa⟩ := hq1
    by_cases hc : phoneChecksB (pyStrip a) = true
    · rw [if_pos hc] at hqa
      have hqs : pyStrip a = q := by injection hqa
      subst hqs
      exact hc
    · rw [if_neg hc] at hqa
      cases hqa
  · have h1 : (dedupBy ((List.map (fun m => sliceCh t m.1 m.2.1) (reFindAll phoneRE t)).filterMap
        (fun p => if phoneChecksB (pyStrip p) = true then some (pyStrip p) else none))).Nodup :=
      nodup_dedupBy _
    have h2 := (List.take_sublist 5 _).nodup h1
    exact h2.map (fun a b hab => by injection hab)
  · rw [List.length_map]
    exact List.length_take_le 5 _

/-- C5: every phone entry has at least 8 digits, matches neither the bare-year
nor the year-range shape, and starts (after the `^\s*` of the gate) with `+`,
`0` or `(`; the list is deduplicated with at most 5 entries; and the input
containing only `"2018-2019"` and `"2020"` yields no phones at all. -/
theorem claim5_phone_filtering (now : Nat × Nat) (text : String) :
    (∀ p ∈ (parse now text).phones,
       8 ≤ (p.toList.filter isDigitCh).length ∧
       reMatch0 yearAnchRE p.toList = none ∧
       reMatch0 yearRangeAnchRE p.toList = none ∧
       (reMatch0 phoneStartRE p.toList).isSome = true) ∧
    (parse now text).phones.Nodup ∧
    (parse now text).phones.length ≤ 5 ∧
    (parse now "2018-2019\n2020").phones = [] := by
  have hconc : (parse now "2018-2019\n2020").phones = [] := by
    rw [parse_eq_of_guard_false now "2018-2019\n2020" (by decide)]
    show phonesOf ("2018-2019\n2020".toList) = []
    decide
  cases hgb : guardB text.toList with
  | true =>
    rw [parse_eq_default_of_guard_true now text hgb]
    refine ⟨?_, ?_, ?_, hconc⟩ <;> simp [defaultMeta]
  | false =>
    rw [parse_eq_of_guard_false now text hgb]
    obtain ⟨hmem, hnd, hlen⟩ := phonesOf_spec text.toList
    refine ⟨?_, hnd, hlen, hconc⟩
    intro p hp
    have hc := hmem p hp
    unfold phoneChecksB at hc
    simp only [Bool.and_eq_true, decide_eq_true_eq, Option.isNone_iff_eq_none] at hc
    exact ⟨hc.1.1.1, hc.1.2, hc.1.1.2, hc.2⟩

/-- Witness for C5: the year-range input produces an empty phone list. -/
theorem claim5_witness :
    (parse (2025, 1) "2018-2019\n2020").phones = [] :=
  (claim5_phone_filtering (2025, 1) "x").2.2.2

/-- C6: if among the first 10 non-empty trimmed lines the first one passing the
separator heuristic has left part `nm` (2–3 words, < 40 characters, no skip
word, every word starting uppercase), then `nm` becomes the name, and whenever
the right part qualified (non-empty, longer than 3 characters) it becomes the
specialty directly. -/
theorem claim6_separator_name_specialty (now : Nat × Nat) (text : String)
    (pre rest : List (List Char)) (l nm : List Char) (t : Option (List Char))
    (hg : guardB text.toList = false)
    (hl : linesOfL text.toList = pre ++ l :: rest)
    (hp : pre.length ≤ 9)
    (hpre : ∀ x ∈ pre, sepCheckLine x = none)
    (hsep : sepCheckLine l = some (nm, t)) :
    (parse now text).name = String.mk nm ∧
    ∀ sp, t = some sp → (parse now text).specialty = String.mk sp := by
  have h0 : heur0 (linesOfL text.toList) = some (pre.length, nm, t) := by
    rw [hl]
    have h00 := heur0Go_append pre l rest nm t 10 0 (by omega) hpre hsep
    unfold heur0
    simpa using h00
  rw [parse_eq_of_guard_false now text hg]
  constructor
  · show (nameSpec (pyLowerL text.toList) (linesOfL text.toList)).1 = String.mk nm
    unfold nameSpec
    rw [h0]
    cases t <;> rfl
  · intro sp hsp
    cases t with
    | none => simp at hsp
    | some tt =>
      have htt : tt = sp := by
        injection hsp
      subst htt
      show (nameSpec (pyLowerL text.toList) (linesOfL text.toList)).2 = String.mk tt
      unfold nameSpec
      rw [h0]

/-- Witness for C6 at `"Jean Dupont | Ingénieur Logiciel\n..."`. -/
theorem claim6_witness :
    (parse (2025, 1) "Jean Dupont | Ingénieur Logiciel\nQuelques détails ici").name
      = "Jean Dupont" ∧
    (parse (2025, 1) "Jean Dupont | Ingénieur Logiciel\nQuelques détails ici").specialty
      = "Ingénieur Logiciel" := by
  have h := claim6_separator_name_specialty (2025, 1)
    "Jean Dupont | Ingénieur Logiciel\nQuelques détails ici"
    [] ["Quelques détails ici".toList]
    "Jean Dupont | Ingénieur Logiciel".toList
    "Jean Dupont".toList (some "Ingénieur Logiciel".toList)
    (by decide) (by decide) (by decide) (by simp) (by decide)
  exact ⟨h.1, h.2 "Ingénieur Logiciel".toList rfl⟩

/-- C7: skill detection is word-boundary anchored — for every input whose
lowercased form has no standalone occurrence of the word `"java"` (in
particular even when it contains `"javascript"`), the skill `"Java"` is not
reported. -/
theorem claim7_skill_boundary_anchored (now : Nat × Nat) (text : String)
    (_hjs : containsSub (pyLowerL text.toList) ("javascript".toList) = true)
    (hnj : ¬ StandaloneOcc ("java".toList) (pyLowerL text.toList)) :
    "Java" ∉ (parse now text).skills := by
  intro hmem
  cases hgb : guardB text.toList with
  | true =>
    rw [parse_eq_default_of_guard_true now text hgb] at hmem
    simp [defaultMeta] at hmem
  | false =>
    rw [parse_eq_of_guard_false now text hgb] at hmem
    have hmem2 : "Java" ∈ skillKeywords.filter
        (fun k => wordFoundB (pyLowerL k.toList) (pyLowerL text.toList)) := hmem
    have hf := (List.mem_filter.mp hmem2).2
    rw [show pyLowerL ("Java".toList) = "java".toList from by decide] at hf
    exact hnj ((wordFoundB_iff (by decide)).mp hf)

/-- Witness for C7 at `"JavaScript"`. -/
theorem claim7_witness :
    "Java" ∉ (parse (2025, 1) "JavaScript").skills :=
  claim7_skill_boundary_anchored (2025, 1) "JavaScript" (by decide) (by decide)

/-- C10: the compiled pattern `\bc\+\+\b` places a word boundary after the
final `+`, which can only hold when a word character follows; hence whenever
every occurrence of `"c++"` in the lowercased text is followed by a non-word
character (whitespace, punctuation) or the end of the text, the skill `"C++"`
is not reported. -/
theorem claim10_cpp_requires_word_after (now : Nat × Nat) (text : String)
    (h : ∀ i, i < (pyLowerL text.toList).length →
        List.isPrefixOf ("c++".toList) ((pyLowerL text.toList).drop i) = true →
        wordAtB (pyLowerL text.toList) (i + 3) = false) :
    "C++" ∉ (parse now text).skills := by
  intro hmem
  cases hgb : guardB text.toList with
  | true =>
    rw [parse_eq_default_of_guard_true now text hgb] at hmem
    simp [defaultMeta] at hmem
  | false =>
    rw [parse_eq_of_guard_false now text hgb] at hmem
    have hmem2 : "C++" ∈ skillKeywords.filter
        (fun k => wordFoundB (pyLowerL k.toList) (pyLowerL text.toList)) := hmem
    have hf := (List.mem_filter.mp hmem2).2
    rw [show pyLowerL ("C++".toList) = "c++".toList from by decide] at hf
    obtain ⟨i, hi, hocc, hb1, hb2⟩ := (wordFoundB_iff (by decide)).mp hf
    have hplus : (pyLowerL text.toList).get? (i + 2) = some '+' := by
      have hpre : ("c++".toList) <+: (pyLowerL text.toList).drop i :=
        List.isPrefixOf_iff_prefix.mp hocc
      obtain ⟨tail, htail⟩ := hpre
      have h2 : ((pyLowerL text.toList).drop i).get? 2 = some '+' := by
        rw [← htail]
        rfl
      rwa [get?_drop_add] at h2
    have hw2 : wordAtB (pyLowerL text.toList) (i + 2) = false := by
      unfold wordAtB
      rw [hplus]
      decide
    have hw3 : wordAtB (pyLowerL text.toList) (i + 3) = false := h i hi hocc
    rw [show ("c++".toList).length = 3 from rfl] at hb2
    unfold boundaryB at hb2
    rw [show (i + 3 == 0) = false from by simp, if_neg (by simp),
        show i + 3 - 1 = i + 2 from by omega, hw2, hw3] at hb2
    simp at hb2

/-- Witness for C10 at `"I know C++ well"`. -/
theorem claim10_witness :
    "C++" ∉ (parse (2025, 1) "I know C++ well").skills :=
  claim10_cpp_requires_word_after (2025, 1) "I know C++ well" (by decide)

/-- C9: the verbatim-duplicated explicit-mention block is behaviorally
redundant — the parser with the duplicate block removed (`parseSingleScan`)
computes the same profile as the parser as written (`parse`), on every clock
and every input. -/
theorem claim9_duplicate_block_redundant (now : Nat × Nat) (text : String) :
    parseSingleScan now text = parse now text := by
  unfold parse parseSingleScan
  rw [expStage1_idem]

end CVParse
